import Mathlib

/-!
Shallow embedding of the reconciliation engines of the Productboard admin
toolkit (duplicate-note grouping, custom-field migration, CSV bulk update,
CSV company import, CSV escaping, and the note-deletion API action), with
theorems settling the specification's testable properties against it.

Values coming from JavaScript are modelled as follows: `string | null |
undefined` parameters become `Option String` (with `none` covering both
`null` and `undefined`); JS `String.prototype.trim` is modelled by
`String.trim` (the inputs exercised here contain only ASCII whitespace);
JS numbers produced by `parseFloat` on decimal text are modelled as `Rat`;
the network is modelled by oracle functions passed to the embedded
handlers, one call site at a time, so the handlers themselves are pure.
-/

namespace PB

/-- JS dynamic values as they appear in Productboard custom-field
responses: `null`/`undefined`, strings, numbers, `{name}` objects,
`{label}` objects, and arrays thereof. -/
inductive JsValue where
  | vNull : JsValue
  | vStr (s : String) : JsValue
  | vNum (q : Rat) : JsValue
  | vNamed (name : String) : JsValue
  | vLabeled (label : String) : JsValue
  | vList (elems : List JsValue) : JsValue

/-- Display model of JS `String(number)`. Only used for log strings; no
theorem below depends on its exact output. -/
def numToString (q : Rat) : String :=
  if q.den = 1 then toString q.num else toString q

/-- `formatFieldValue` (part_006 lines 112-123): render a dynamic field
value for display. `null`/`undefined` become `""`, `{name}`/`{label}`
objects their name/label, arrays a `", "`-join, scalars `String(value)`.
(The JS falsiness of an empty `name`/`label` string is not exercised by
any input in this development.) -/
def formatFieldValue : JsValue → String
  | .vNull => ""
  | .vStr s => s
  | .vNum q => numToString q
  | .vNamed n => n
  | .vLabeled l => l
  | .vList elems => String.intercalate ", " (elems.map fun v =>
      match v with
      | .vNamed n => n
      | .vLabeled l => l
      | .vStr s => s
      | .vNum q => numToString q
      | _ => "")

/-- Model of JS `String.prototype.trim`: drop whitespace from both ends.
(Char-level so that the kernel can evaluate it; the inputs of this
repository contain only ASCII whitespace.) -/
def jsTrim (s : String) : String :=
  String.mk (((s.data.dropWhile Char.isWhitespace).reverse.dropWhile Char.isWhitespace).reverse)

/-- Model of the JS global regex replace `value.replace(/%/g, '')`:
delete every `%` character. -/
def stripPercents (s : String) : String :=
  String.mk (s.data.filter (· ≠ '%'))

/-- `isBlankValue` (part_006 lines 126-130): a cell is blank iff it is
`null`/`undefined` or its trimmed text is `""`, `"-"`, or `"'-"`. -/
def isBlankValue : Option String → Bool
  | none => true
  | some s => jsTrim s = "" || jsTrim s = "-" || jsTrim s = "'-"

/-- Accumulate a digit run as a natural number. -/
def digitsToNat (ds : List Char) : Nat :=
  ds.foldl (fun a c => a * 10 + (c.toNat - 48)) 0

/-- Model of JS `parseFloat`: skip leading whitespace, read an optional
sign, a digit run, an optional `.` plus digit run, and an optional
`e`/`E` exponent; everything after the longest such prefix is ignored;
`NaN` (no digit in the mantissa) is `none`. The `Infinity` literal and
float rounding are outside the inputs this repository feeds it (CSV cell
text), so the value is kept exact as a `Rat`. -/
def jsParseFloat (s : String) : Option Rat :=
  let cs := s.data.dropWhile Char.isWhitespace
  let (neg, cs1) : Bool × List Char :=
    match cs with
    | '-' :: r => (true, r)
    | '+' :: r => (false, r)
    | _ => (false, cs)
  let intDigits := cs1.takeWhile Char.isDigit
  let cs2 := cs1.dropWhile Char.isDigit
  let (fracDigits, cs3) : List Char × List Char :=
    match cs2 with
    | '.' :: r => (r.takeWhile Char.isDigit, r.dropWhile Char.isDigit)
    | _ => ([], cs2)
  if intDigits = [] && fracDigits = [] then none
  else
    let mant : Rat :=
      (digitsToNat intDigits : Rat) + (digitsToNat fracDigits : Rat) / ((10 : Rat) ^ fracDigits.length)
    let exp : Int :=
      match cs3 with
      | 'e' :: r | 'E' :: r =>
        let (esign, r2) : Int × List Char :=
          match r with
          | '-' :: r2 => (-1, r2)
          | '+' :: r2 => (1, r2)
          | _ => (1, r)
        let eds := r2.takeWhile Char.isDigit
        if eds = [] then 0 else esign * (digitsToNat eds : Int)
      | _ => 0
    let v := mant * (10 : Rat) ^ exp
    some (if neg then -v else v)

/-- The numeric-coercion pipeline of the CSV bulk update (part_006 lines
506-507): `value.trim().replace(/%/g, '')` then `parseFloat`. -/
def cleanNumeric (s : String) : Option Rat :=
  jsParseFloat (stripPercents (jsTrim s))

/-! ## Duplicate-notes module (src/src/modules/duplicate-notes/index.tsx) -/

/-- A Productboard note as consumed by the duplicate-notes module.
`company` is the `company?.id` of the JS object (`none` when the note has
no company object). -/
structure Note where
  id : String
  title : Option String := none
  content : Option String := none
  company : Option String := none
  createdAt : Option String := none
  sourceOrigin : Option String := none
  deriving Repr, DecidableEq

/-- `(note.content || '').trim()` — JS `||` only, because JS strings are
falsy exactly when empty, coincides with `getD` here. -/
def noteContent (n : Note) : String := jsTrim (n.content.getD "")

/-- `(note.title || '').trim()`. -/
def noteTitle (n : Note) : String := jsTrim (n.title.getD "")

/-- `note.company?.id || null`: an absent company object or an empty-string
id (falsy in JS) both yield `null`. -/
def noteCompanyId (n : Note) : Option String :=
  match n.company with
  | some cid => if cid = "" then none else some cid
  | none => none

/-- A JS `Map` with string keys: an insertion-ordered association list.
`Map.prototype.set` overwrites in place, keeping the original insertion
position; a new key is appended. Iteration follows insertion order. -/
abbrev JsMap (α : Type) := List (String × α)

def jsGet {α : Type} (m : JsMap α) (k : String) : Option α :=
  (m.find? (fun p => p.1 = k)).map (·.2)

def jsSet {α : Type} (m : JsMap α) (k : String) (v : α) : JsMap α :=
  if m.any (fun p => p.1 = k) then
    m.map (fun p => if p.1 = k then (k, v) else p)
  else m ++ [(k, v)]

def jsKeys {α : Type} (m : JsMap α) : List String := m.map (·.1)

/-- `const group = map.get(key) || []; group.push(note); map.set(key, group)`. -/
def pushToGroup (m : JsMap (List Note)) (k : String) (n : Note) : JsMap (List Note) :=
  jsSet m k ((jsGet m k).getD [] ++ [n])

/-- Model of JS `key.split('|||')`: greedy leftmost non-overlapping split
on the three-pipe separator. -/
def splitTP : List Char → List Char → List (List Char) → List (List Char)
  | '|' :: '|' :: '|' :: rest, cur, acc => splitTP rest [] (acc ++ [cur])
  | c :: rest, cur, acc => splitTP rest (cur ++ [c]) acc
  | [], cur, acc => acc ++ [cur]

def splitKey (s : String) : List String := (splitTP s.data [] []).map String.mk

/-- First grouping pass (lines 46-62): notes with a company id are keyed
by `content|||title|||companyId`, the rest by `content|||title`. -/
def groupPass (notes : List Note) : JsMap (List Note) × JsMap (List Note) :=
  notes.foldl
    (fun gm note =>
      let content := noteContent note
      let title := noteTitle note
      match noteCompanyId note with
      | some cid => (pushToGroup gm.1 (content ++ "|||" ++ title ++ "|||" ++ cid) note, gm.2)
      | none => (gm.1, pushToGroup gm.2 (content ++ "|||" ++ title) note))
    ([], [])

/-- Merge pass (lines 64-94): company-less groups are appended to every
existing group whose key shares their `(content, title)` prefix, or form
their own `...|||null` group when none matches. (Every key reaching the
split contains the `|||` separator, so the two destructured segments
always exist.) -/
def mergeNoCompany (dm0 : JsMap (List Note)) (gwo : JsMap (List Note)) : JsMap (List Note) :=
  gwo.foldl
    (fun dm kv =>
      let parts := splitKey kv.1
      let content := parts.getD 0 ""
      let title := parts.getD 1 ""
      let matchingKeys := (jsKeys dm).filter (fun k =>
        let ps := splitKey k
        ps.getD 0 "" = content && ps.getD 1 "" = title)
      if matchingKeys.isEmpty then
        jsSet dm (content ++ "|||" ++ title ++ "|||null") kv.2
      else
        matchingKeys.foldl (fun dm mk => jsSet dm mk ((jsGet dm mk).getD [] ++ kv.2)) dm)
    dm0

/-- Comparison of `a.createdAt || ''` with `b.createdAt || ''`, the sort
key of line 103-107. JS compares with `localeCompare`; on the ISO-8601
timestamps this module feeds it (the spec notes lexical comparison is
acceptable for them) that is code-point lexicographic order, modelled
char by char. -/
def lexLe : List Char → List Char → Bool
  | [], _ => true
  | _ :: _, [] => false
  | a :: as, b :: bs => if a = b then lexLe as bs else decide (a < b)

def noteLe (a b : Note) : Prop :=
  lexLe (a.createdAt.getD "").data (b.createdAt.getD "").data = true

instance : DecidableRel noteLe := fun _ _ =>
  inferInstanceAs (Decidable (_ = true))

/-- Output unit of `findDuplicateGroups`. -/
structure DuplicateGroup where
  key : String
  notes : List Note
  keepNote : Note
  deleteNotes : List Note
  deriving Repr, DecidableEq

/-- Keep/delete selection for one grouped key (lines 99-120): a group with
at least two entries and at least two distinct ids is sorted ascending by
`createdAt` (stable, as JS `Array.prototype.sort` is); the keep note is
the first sorted note that has a company, else the first sorted note; the
delete notes are all sorted notes whose id differs from the keep note's.
(The `[]` branch is unreachable: the guard forces at least two entries.) -/
def selectGroup (key : String) (ns : List Note) : Option DuplicateGroup :=
  if ns.length > 1 && ((ns.map (·.id)).dedup.length > 1) then
    let sorted := List.insertionSort noteLe ns
    let withCompany := sorted.filter (fun n => (noteCompanyId n).isSome)
    match sorted with
    | [] => none
    | s0 :: _ =>
      let keep := withCompany.headD s0
      some ⟨key, sorted, keep, sorted.filter (fun n => n.id ≠ keep.id)⟩
  else none

/-- `findDuplicateGroups` (lines 41-124). -/
def findDuplicateGroups (notes : List Note) : List DuplicateGroup :=
  let gm := groupPass notes
  let dm := mergeNoCompany gm.1 gm.2
  dm.filterMap (fun kv => selectGroup kv.1 kv.2)

/-- Outcome of one note-deletion sink call (`deleteNoteAction`): a
returned `{success, error}` record, or a thrown exception whose
`String(error)` rendering is `msg`. -/
inductive DeleteSinkOutcome where
  | ok (success : Bool) (error : Option String)
  | exn (msg : String)

structure DeletionResult where
  noteId : String
  title : String
  companyName : String
  success : Bool
  error : Option String
  deriving Repr, DecidableEq

/-- `note.company?.id ? companies.get(note.company.id)?.name || '' : ''`
(line 300); `companies` is the loaded id → name map. -/
def noteCompanyName (companies : String → Option String) (n : Note) : String :=
  match noteCompanyId n with
  | some cid => (companies cid).getD ""
  | none => ""

/-- The deletion loop body of `handleDeleteDuplicates` (lines 298-328):
process notes strictly sequentially, record one result per note (the
catch branch records `success: false` with the stringified error), and
after every 50th note — when more remain — sleep 1000 ms.  Returns the
accumulated results together with the trace of sleep durations. -/
def deletionLoop (companies : String → Option String) (sink : String → DeleteSinkOutcome) :
    List Note → Nat → Nat → List DeletionResult × List Nat
  | [], _, _ => ([], [])
  | note :: rest, i, total =>
    let res : DeletionResult :=
      match sink note.id with
      | .ok succ err => ⟨note.id, note.title.getD "", noteCompanyName companies note, succ, err⟩
      | .exn msg => ⟨note.id, note.title.getD "", noteCompanyName companies note, false, some msg⟩
    let next := deletionLoop companies sink rest (i + 1) total
    (res :: next.1, (if (i + 1) % 50 = 0 && i + 1 < total then [1000] else []) ++ next.2)

/-- `handleDeleteDuplicates` (lines 288-332): delete every group's
`deleteNotes`, flattened in group order. -/
def handleDeleteDuplicates (groups : List DuplicateGroup) (companies : String → Option String)
    (sink : String → DeleteSinkOutcome) : List DeletionResult × List Nat :=
  let notesToDelete := groups.flatMap (·.deleteNotes)
  deletionLoop companies sink notesToDelete 0 notesToDelete.length

/-! ## Custom-field migration module (src/src/modules/custom-field-migration/index.tsx) -/

structure CustomField where
  id : String
  name : String
  type : String
  deriving Repr, DecidableEq

structure Feature where
  id : String
  name : String
  deriving Repr, DecidableEq

structure FieldMapping where
  id : String
  sourceFieldId : String
  targetFieldId : String
  deriving Repr, DecidableEq

/-- `fieldMappings.filter(m => m.sourceFieldId && m.targetFieldId)`
(line 219): both ids non-empty (JS string truthiness). -/
def validMappings (ms : List FieldMapping) : List FieldMapping :=
  ms.filter (fun m => m.sourceFieldId ≠ "" && m.targetFieldId ≠ "")

/-- One entry of a `getBatchCustomFieldValues` response. -/
structure BatchEntry where
  value : JsValue
  hasValue : Bool

/-- `values.results[feature.id] || { value: null, hasValue: false }`
(lines 250-251): an absent key falls back to the empty entry. The batch
responses are modelled as an oracle keyed by custom-field id and feature
id. -/
def lookupEntry (oracle : String → String → Option BatchEntry) (fieldId featureId : String) :
    BatchEntry :=
  (oracle fieldId featureId).getD ⟨.vNull, false⟩

inductive PreviewAction where
  | will_update
  | skipped_has_value
  | skipped_source_empty
  deriving Repr, DecidableEq

structure PreviewItem where
  featureId : String
  featureName : String
  sourceFieldId : String
  sourceFieldName : String
  targetFieldId : String
  targetFieldName : String
  sourceValue : JsValue
  targetValue : JsValue
  action : PreviewAction

/-- The per-feature classification of `handleLoadPreview` (lines 249-273):
no source value → `skipped_source_empty`; else a populated target under
the `onlyEmptyTargets` flag → `skipped_has_value`; else `will_update`,
carrying the source value that execution will write. -/
def classifyFeature (onlyEmptyTargets : Bool) (customFields : List CustomField)
    (oracle : String → String → Option BatchEntry) (m : FieldMapping) (f : Feature) :
    PreviewItem :=
  let sourceField := customFields.find? (fun cf => cf.id = m.sourceFieldId)
  let targetField := customFields.find? (fun cf => cf.id = m.targetFieldId)
  let sourceData := lookupEntry oracle m.sourceFieldId f.id
  let targetData := lookupEntry oracle m.targetFieldId f.id
  let action : PreviewAction :=
    if !sourceData.hasValue then .skipped_source_empty
    else if onlyEmptyTargets && targetData.hasValue then .skipped_has_value
    else .will_update
  { featureId := f.id, featureName := f.name,
    sourceFieldId := m.sourceFieldId, sourceFieldName := ((sourceField.map (·.name)).getD ""),
    targetFieldId := m.targetFieldId, targetFieldName := ((targetField.map (·.name)).getD ""),
    sourceValue := sourceData.value, targetValue := targetData.value, action := action }

/-- `handleLoadPreview` (lines 221-282), classification part: one item per
valid mapping per fetched feature, mappings outermost. -/
def handleLoadPreview (mappings : List FieldMapping) (customFields : List CustomField)
    (features : List Feature) (oracle : String → String → Option BatchEntry)
    (onlyEmptyTargets : Bool) : List PreviewItem :=
  (validMappings mappings).flatMap
    (fun m => features.map (classifyFeature onlyEmptyTargets customFields oracle m))

/-- Outcome of one `setCustomFieldValue` sink call: a returned
`{success, response, error}` record, or a thrown exception. -/
inductive SinkOutcome where
  | ok (success : Bool) (response : Option String) (error : Option String)
  | exn (msg : String)

structure MigrationResult where
  featureId : String
  featureName : String
  sourceFieldName : String
  targetFieldName : String
  success : Bool
  action : String
  newValue : JsValue
  response : String
  error : Option String

/-- One iteration of `handleExecuteMigration`'s loop (lines 294-334): call
the sink with the item's target field, feature, source value and the
target field's type (`targetField?.type || 'text'`); the catch branch
records a failure with the stringified error. -/
def execMigrationItem (customFields : List CustomField)
    (sink : String → String → JsValue → String → SinkOutcome) (item : PreviewItem) :
    MigrationResult :=
  let fieldType := ((customFields.find? (fun f => f.id = item.targetFieldId)).map (·.type)).getD "text"
  match sink item.targetFieldId item.featureId item.sourceValue fieldType with
  | .ok succ resp err =>
    { featureId := item.featureId, featureName := item.featureName,
      sourceFieldName := item.sourceFieldName, targetFieldName := item.targetFieldName,
      success := succ, action := "updated", newValue := item.sourceValue,
      response := resp.getD "", error := err }
  | .exn msg =>
    { featureId := item.featureId, featureName := item.featureName,
      sourceFieldName := item.sourceFieldName, targetFieldName := item.targetFieldName,
      success := false, action := "failed", newValue := item.sourceValue,
      response := "", error := some msg }

/-- `previewItems.filter(item => item.action === 'will_update')` (line 289). -/
def willUpdateItems (items : List PreviewItem) : List PreviewItem :=
  items.filter (fun i => i.action = PreviewAction.will_update)

/-- The executor loop of `handleExecuteMigration` (lines 294-334): strictly
sequential, one result per item, no abort on failure, and — unlike the
other executors — no rate-limit sleep anywhere in the loop.  The second
component is the (always empty) sleep trace, kept for comparison with the
throttled executors. -/
def migrationLoop (customFields : List CustomField)
    (sink : String → String → JsValue → String → SinkOutcome) :
    List PreviewItem → List MigrationResult × List Nat
  | [] => ([], [])
  | item :: rest =>
    let next := migrationLoop customFields sink rest
    (execMigrationItem customFields sink item :: next.1, next.2)

/-- `handleExecuteMigration` (lines 284-338). -/
def handleExecuteMigration (customFields : List CustomField) (previewItems : List PreviewItem)
    (sink : String → String → JsValue → String → SinkOutcome) :
    List MigrationResult × List Nat :=
  migrationLoop customFields sink (willUpdateItems previewItems)

/-! ## CSV bulk update module (part_006) -/

structure ColumnMapping where
  csvColumn : String
  mappedTo : Option String
  deriving Repr, DecidableEq

/-- `columnMappings.filter(m => m.mappedTo && m.csvColumn !== uuidColumn)`
(lines 362-364): mapped (non-null, non-empty) and not the UUID column. -/
def getValueColumns (columnMappings : List ColumnMapping) (uuidColumn : String) :
    List ColumnMapping :=
  columnMappings.filter (fun m => m.mappedTo.any (· ≠ "") && m.csvColumn ≠ uuidColumn)

/-- A parsed CSV row: column name → cell text.  An absent column reads as
JS `undefined`, i.e. `none`. -/
abbrev CSVRow := List (String × String)

def rowGet (row : CSVRow) (col : String) : Option String :=
  (row.find? (fun p => p.1 = col)).map (·.2)

structure FieldUpdateDetail where
  fieldId : String
  fieldName : String
  oldValue : Option String
  newValue : String
  skipped : Bool
  deriving Repr, DecidableEq

structure CustomFieldUpdate where
  fieldId : String
  fieldType : String
  value : Rat
  deriving Repr, DecidableEq

structure UpdateResult where
  rowIndex : Nat
  featureId : String
  featureName : String
  success : Bool
  error : Option String
  fieldUpdates : List FieldUpdateDetail
  allFieldsSkipped : Bool
  deriving Repr, DecidableEq

/-- Outcome of one `getCustomFieldValue` read: a returned
`{success, hasValue, value}` record, or a thrown exception (whose catch
branch proceeds with the update). -/
inductive GetValueOutcome where
  | ok (success : Bool) (hasValue : Bool) (value : JsValue)
  | exn

/-- Outcome of one `updateFeatureCustomFields` sink call. -/
inductive UpdateSinkOutcome where
  | ok (success : Bool) (error : Option String)
  | exn (msg : String)

/-- Per-mapping field processing of `handleStartUpdate` (lines 500-549).
Returns `none` when the mapping resolves to no custom field, the cell is
blank, or the cleaned value fails `parseFloat` — in the last case the
field is silently omitted, with no error recorded anywhere.  Otherwise
returns the `FieldUpdateDetail` log entry paired with the payload entry
(`none` when `preserveExisting` found an existing remote value and the
field is skipped). -/
def processField (preserve : Bool) (getValue : String → String → GetValueOutcome)
    (customFields : List CustomField) (row : CSVRow) (featureId : String)
    (m : ColumnMapping) : Option (FieldUpdateDetail × Option CustomFieldUpdate) :=
  match customFields.find? (fun f => some f.id = m.mappedTo) with
  | none => none
  | some field =>
    let csvValue := rowGet row m.csvColumn
    if isBlankValue csvValue then none
    else
      match cleanNumeric (csvValue.getD "") with
      | none => none
      | some n =>
        let skipInfo : Option String × Bool :=
          if preserve then
            match getValue field.id featureId with
            | .ok succ hasV v => if succ && hasV then (some (formatFieldValue v), true) else (none, false)
            | .exn => (none, false)
          else (none, false)
        some (⟨field.id, field.name, skipInfo.1, numToString n, skipInfo.2⟩,
          if skipInfo.2 then none else some ⟨field.id, field.type, n⟩)

/-- `featureName` resolution (lines 486-494): `getFeature` success with a
record yields `data.name || featureId`; failure or a thrown fetch keeps
the UUID as the name.  The oracle returns the fetched name, `none` on
failure/throw. -/
def resolveFeatureName (nameOracle : String → Option String) (featureId : String) : String :=
  match nameOracle featureId with
  | some nm => if nm = "" then featureId else nm
  | none => featureId

/-- One iteration of `handleStartUpdate`'s row loop (lines 481-597):
build the field updates, then either report an all-skipped success, skip
the row entirely (`continue`) when nothing survived cleaning, or call the
sink and record its outcome (catch → failure with stringified error). -/
def processRow (preserve : Bool) (getValue : String → String → GetValueOutcome)
    (updateSink : String → List CustomFieldUpdate → UpdateSinkOutcome)
    (nameOracle : String → Option String) (customFields : List CustomField)
    (valueColumns : List ColumnMapping) (uuidColumn : String) (rowIndex : Nat)
    (row : CSVRow) : Option UpdateResult :=
  let featureId := jsTrim ((rowGet row uuidColumn).getD "")
  let featureName := resolveFeatureName nameOracle featureId
  let pairs := valueColumns.filterMap (processField preserve getValue customFields row featureId)
  let fieldUpdates := pairs.map (·.1)
  let customFieldUpdates := pairs.filterMap (·.2)
  let allFieldsSkipped := fieldUpdates.length > 0 && customFieldUpdates.length = 0
  if allFieldsSkipped then
    some ⟨rowIndex, featureId, featureName, true, none, fieldUpdates, true⟩
  else if customFieldUpdates.isEmpty then none
  else
    match updateSink featureId customFieldUpdates with
    | .ok succ err => some ⟨rowIndex, featureId, featureName, succ, err, fieldUpdates, false⟩
    | .exn msg => some ⟨rowIndex, featureId, featureName, false, some msg, fieldUpdates, false⟩

/-- Row pre-filter (lines 458-477): keep rows whose trimmed UUID cell is
non-blank and that have at least one non-blank mapped cell. -/
def rowEligible (valueColumns : List ColumnMapping) (uuidColumn : String) (row : CSVRow) : Bool :=
  !isBlankValue ((rowGet row uuidColumn).map jsTrim) &&
    valueColumns.any (fun m => !isBlankValue (rowGet row m.csvColumn))

def rowsToProcess (rows : List CSVRow) (valueColumns : List ColumnMapping)
    (uuidColumn : String) : List (Nat × CSVRow) :=
  rows.enum.filter (fun p => rowEligible valueColumns uuidColumn p.2)

/-- The throttled row loop of `handleStartUpdate`: a 200 ms sleep after
every 10th processed row when more remain (lines 600-603). -/
def bulkLoop (preserve : Bool) (getValue : String → String → GetValueOutcome)
    (updateSink : String → List CustomFieldUpdate → UpdateSinkOutcome)
    (nameOracle : String → Option String) (customFields : List CustomField)
    (valueColumns : List ColumnMapping) (uuidColumn : String) :
    List (Nat × CSVRow) → Nat → Nat → List UpdateResult × List Nat
  | [], _, _ => ([], [])
  | (rowIndex, row) :: rest, i, total =>
    let res := processRow preserve getValue updateSink nameOracle customFields valueColumns
      uuidColumn rowIndex row
    let next := bulkLoop preserve getValue updateSink nameOracle customFields valueColumns
      uuidColumn rest (i + 1) total
    ((match res with | some r => [r] | none => []) ++ next.1,
     (if (i + 1) % 10 = 0 && i + 1 < total then [200] else []) ++ next.2)

/-- `handleStartUpdate` (lines 447-609). -/
def handleStartUpdate (preserve : Bool) (getValue : String → String → GetValueOutcome)
    (updateSink : String → List CustomFieldUpdate → UpdateSinkOutcome)
    (nameOracle : String → Option String) (customFields : List CustomField)
    (columnMappings : List ColumnMapping) (uuidColumn : String) (rows : List CSVRow) :
    List UpdateResult × List Nat :=
  let valueColumns := getValueColumns columnMappings uuidColumn
  let rtp := rowsToProcess rows valueColumns uuidColumn
  bulkLoop preserve getValue updateSink nameOracle customFields valueColumns uuidColumn
    rtp 0 rtp.length

/-! ## CSV company import module (src/src/modules/csv-company-import/index.tsx) -/

structure CompanyFieldConfig where
  id : String
  name : String
  type : String
  deriving Repr, DecidableEq

/-- A value sent to `setCompanyFieldValue`: the raw cell string, or the
`parseFloat` coercion for number fields. -/
inductive NumOrStr where
  | num (q : Rat)
  | str (s : String)

/-- Result of one `setCompanyFieldValue` call. -/
structure SetSinkResult where
  success : Bool
  error : Option String

/-- The custom-field loop of `handleStartImport` (lines 472-501), for one
company: per mapped field, skip empty cells; for a number field, apply
`parseFloat` — an invalid parse appends the field-level error
`Invalid number value for <name>: <value>` and performs no sink call,
while the remaining fields continue; otherwise call the sink (recording
`<name>: <error>` on a non-success response).  Returns the accumulated
field errors and the trace of performed sink calls
`(fieldId, fieldType, value)`. -/
def companyFieldPass (companyFields : List CompanyFieldConfig)
    (setSink : String → String → NumOrStr → SetSinkResult) :
    List (String × String) → List String × List (String × String × NumOrStr)
  | [] => ([], [])
  | (fieldId, value) :: rest =>
    let next := companyFieldPass companyFields setSink rest
    if value = "" then next
    else
      let fieldConfig := companyFields.find? (fun f => f.id = fieldId)
      if (fieldConfig.map (·.type)).getD "" = "number" then
        match jsParseFloat value with
        | some n =>
          let ty := (fieldConfig.map (·.type)).getD "text"
          let r := setSink fieldId ty (.num n)
          ((if r.success then [] else
              [((fieldConfig.map (·.name)).getD fieldId) ++ ": " ++ (r.error.getD "")]) ++ next.1,
           (fieldId, ty, NumOrStr.num n) :: next.2)
        | none =>
          (("Invalid number value for " ++ ((fieldConfig.map (·.name)).getD "") ++ ": " ++ value)
              :: next.1,
           next.2)
      else
        let ty := (fieldConfig.map (·.type)).getD "text"
        let r := setSink fieldId ty (.str value)
        ((if r.success then [] else
            [((fieldConfig.map (·.name)).getD fieldId) ++ ": " ++ (r.error.getD "")]) ++ next.1,
         (fieldId, ty, NumOrStr.str value) :: next.2)

/-! ## CSV line escaping and parsing (part_008 lines 62-102) -/

/-- Model of `value.replace(/"/g, '""')`: double every quote. -/
def doubleQuotesList : List Char → List Char
  | [] => []
  | c :: rest =>
    if c = '"' then '"' :: '"' :: doubleQuotesList rest
    else c :: doubleQuotesList rest

/-- `escapeCSV` (part_008 lines 97-102): wrap in quotes and double the
embedded quotes when the value contains a comma, quote, or newline. -/
def escapeCSV (value : String) : String :=
  if value.data.contains ',' || value.data.contains '"' || value.data.contains '\n' then
    "\"" ++ String.mk (doubleQuotesList value.data) ++ "\""
  else value

/-- The character loop of `parseCSVLine` (part_008 lines 62-94): `cur` is
the field being accumulated, `acc` the fields already emitted.  Inside
quotes a doubled quote is a literal quote and a single quote closes;
outside quotes a quote opens, a comma emits the trimmed field.  The
trailing `result.push(current.trim())` is the `[]` case. -/
def goCSV : List Char → Bool → List Char → List String → List String
  | [], _, cur, acc => acc ++ [jsTrim (String.mk cur)]
  | '"' :: '"' :: rest2, true, cur, acc => goCSV rest2 true (cur ++ ['"']) acc
  | '"' :: rest, true, cur, acc => goCSV rest false cur acc
  | c :: rest, true, cur, acc => goCSV rest true (cur ++ [c]) acc
  | '"' :: rest, false, cur, acc => goCSV rest true cur acc
  | ',' :: rest, false, cur, acc => goCSV rest false [] (acc ++ [jsTrim (String.mk cur)])
  | c :: rest, false, cur, acc => goCSV rest false (cur ++ [c]) acc

/-- `parseCSVLine` (part_008 lines 62-94). -/
def parseCSVLine (line : String) : List String :=
  goCSV line.data false [] []

/-! ## Note-deletion Convex action (part_007 lines 292-318) -/

/-- `SAFE_ERROR_MAP` (part_002 lines 7-19). -/
def SAFE_ERROR_MAP (status : Nat) : Option String :=
  match status with
  | 400 => some "Invalid request parameters"
  | 401 => some "Invalid or expired API token"
  | 403 => some "Access denied - check token permissions"
  | 404 => some "Resource not found"
  | 409 => some "Conflict - resource already exists"
  | 422 => some "Invalid data format"
  | 429 => some "Rate limit exceeded - please wait and retry"
  | 500 => some "Productboard server error"
  | 502 => some "Productboard service unavailable"
  | 503 => some "Productboard service temporarily unavailable"
  | 504 => some "Request timed out"
  | _ => none

/-- `sanitizeApiError` (part_002 lines 25-32): the raw error text is only
logged server-side; the client message depends on the status alone. -/
def sanitizeApiError (status : Nat) (_rawError : String) : String :=
  (SAFE_ERROR_MAP status).getD ("Request failed (" ++ toString status ++ ")")

structure DeleteNoteResult where
  success : Bool
  error : Option String
  status : Option Nat
  deriving Repr, DecidableEq

/-- `deleteNote` (part_007 lines 292-318), response path: status 204 or
404 (already deleted) is success; 429 is a rate-limit failure; any other
status is a failure with the sanitized message.  (The catch path for a
thrown fetch returns `success: false` with a null status and is not
reached by any HTTP response.) -/
def deleteNote (status : Nat) (errorText : String) : DeleteNoteResult :=
  if status = 204 || status = 404 then ⟨true, none, some status⟩
  else if status = 429 then
    ⟨false, some "Rate limit exceeded - please wait and retry", some 429⟩
  else ⟨false, some (sanitizeApiError status errorText), some status⟩

/-! ## Spec-side schedule (for the throttling comparison) -/

/-- The throttle schedule as the spec describes it: one `ms` sleep after
the `batch`-th, `2·batch`-th, … processed item, skipped when no items
remain; `count` items processed starting at position `start` of `total`.
Written from the spec's words, to be compared with the executor loops. -/
def throttleTrace (batch ms count start total : Nat) : List Nat :=
  (List.range count).filterMap
    (fun k => if (start + k + 1) % batch = 0 && start + k + 1 < total then some ms else none)

/-! ## Concrete inputs used by witnesses and counterexamples -/

/-- Note `A` of the spec's duplicate-grouping example. -/
def exNoteA : Note :=
  { id := "A", title := some "t", content := some "x", company := some "C1",
    createdAt := some "2020-01-01" }

/-- Note `B` of the spec's duplicate-grouping example. -/
def exNoteB : Note :=
  { id := "B", title := some "t", content := some "x", company := some "C1",
    createdAt := some "2020-02-01" }

/-- Note `C` of the spec's duplicate-grouping example (no company). -/
def exNoteC : Note :=
  { id := "C", title := some "t", content := some "x", company := none,
    createdAt := some "2019-01-01" }

/-- The group `findDuplicateGroups` produces for `[A, B, C]`. -/
def exGroup : DuplicateGroup :=
  ⟨"x|||t|||C1", [exNoteC, exNoteA, exNoteB], exNoteA, [exNoteC, exNoteB]⟩

/-- A `will_update` preview item addressed to feature `fid`. -/
def exMigItem (fid : String) : PreviewItem :=
  { featureId := fid, featureName := "", sourceFieldId := "s", sourceFieldName := "",
    targetFieldId := "t", targetFieldName := "", sourceValue := .vStr "v",
    targetValue := .vNull, action := .will_update }

def exMigItems : List PreviewItem :=
  [exMigItem "f1", exMigItem "f2", exMigItem "f3", exMigItem "f4", exMigItem "f5",
   exMigItem "f6", exMigItem "f7", exMigItem "f8", exMigItem "f9", exMigItem "f10"]

/-- A sink that fails exactly on feature `f5`. -/
def exMigSink : String → String → JsValue → String → SinkOutcome :=
  fun _ fid _ _ => if fid = "f5" then .ok false none (some "boom") else .ok true (some "") none

/-- Mapping and feature for the field-copy witness. -/
def exMapping : FieldMapping := ⟨"m1", "src", "tgt"⟩

def exFeature : Feature := ⟨"feat1", "Feature 1"⟩

/-- Batch-value oracle with both source and target populated. -/
def exOracleBoth : String → String → Option BatchEntry :=
  fun fid _ => if fid = "src" then some ⟨.vStr "S", true⟩ else some ⟨.vStr "T", true⟩

/-- Bulk-update fixtures: a UUID column and two mapped number columns. -/
def exColumnMappings : List ColumnMapping :=
  [⟨"uuid", none⟩, ⟨"colA", some "fldA"⟩, ⟨"colB", some "fldB"⟩]

def exFieldA : CustomField := ⟨"fldA", "Field A", "number"⟩

def exFieldB : CustomField := ⟨"fldB", "Field B", "number"⟩

/-- A row with two non-blank numeric cells. -/
def exRow : CSVRow := [("uuid", "feat-1"), ("colA", "10"), ("colB", "20")]

/-- A row whose first mapped cell does not parse as a number. -/
def exRowBad : CSVRow := [("uuid", "feat-2"), ("colA", "abc"), ("colB", "5")]

/-- Field-value oracle: `fldA` already has a remote value, `fldB` is empty. -/
def exGetValue : String → String → GetValueOutcome :=
  fun fid _ => if fid = "fldA" then .ok true true (.vStr "old") else .ok true false .vNull

/-- A sink that always succeeds. -/
def exUpdateSink : String → List CustomFieldUpdate → UpdateSinkOutcome :=
  fun _ _ => .ok true none

/-- Twelve identical notes (distinct ids): one duplicate group with eleven
deletions. -/
def mkDelNote (id cAt : String) : Note :=
  { id := id, title := some "t", content := some "dup", company := some "C9",
    createdAt := some cAt }

def exDelNotes : List Note :=
  [mkDelNote "d01" "2020-01-01", mkDelNote "d02" "2020-01-02", mkDelNote "d03" "2020-01-03",
   mkDelNote "d04" "2020-01-04", mkDelNote "d05" "2020-01-05", mkDelNote "d06" "2020-01-06",
   mkDelNote "d07" "2020-01-07", mkDelNote "d08" "2020-01-08", mkDelNote "d09" "2020-01-09",
   mkDelNote "d10" "2020-01-10", mkDelNote "d11" "2020-01-11", mkDelNote "d12" "2020-01-12"]

/-! # Theorems -/

theorem lexLe_refl (cs : List Char) : lexLe cs cs = true := by
  induction cs with
  | nil => rfl
  | cons c cs ih => simp [lexLe, ih]

theorem lexLe_total (as bs : List Char) : lexLe as bs = true ∨ lexLe bs as = true := by
  induction as generalizing bs with
  | nil => left; rfl
  | cons a as ih =>
    cases bs with
    | nil => right; rfl
    | cons b bs =>
      by_cases hab : a = b
      · subst hab
        simpa [lexLe] using ih bs
      · rcases lt_trichotomy a b with h | h | h
        · left; simp [lexLe, hab, h]
        · exact absurd h hab
        · right
          have hba : b ≠ a := fun e => hab e.symm
          simp [lexLe, hba, h]

theorem lexLe_trans : ∀ as bs cs : List Char,
    lexLe as bs = true → lexLe bs cs = true → lexLe as cs = true
  | [], _, _, _, _ => rfl
  | _ :: _, [], _, h, _ => by simp [lexLe] at h
  | _ :: _, _ :: _, [], _, h => by simp [lexLe] at h
  | a :: as, b :: bs, c :: cs, h1, h2 => by
    by_cases hab : a = b
    · subst hab
      by_cases hac : a = c
      · subst hac
        simp only [lexLe, if_pos rfl] at h1 h2 ⊢
        exact lexLe_trans as bs cs h1 h2
      · simp only [lexLe, if_pos rfl] at h1
        simpa [lexLe, hac] using h2
    · by_cases hbc : b = c
      · subst hbc
        simpa [lexLe, hab] using h1
      · simp only [lexLe, if_neg hab] at h1
        simp only [lexLe, if_neg hbc] at h2
        have hac : a < c := lt_trans (of_decide_eq_true h1) (of_decide_eq_true h2)
        simp [lexLe, ne_of_lt hac, hac]

theorem noteLe_refl (n : Note) : noteLe n n := lexLe_refl _

theorem selectGroup_spec (key : String) (ns : List Note) (g : DuplicateGroup)
    (h : selectGroup key ns = some g) :
    g.keepNote ∈ g.notes ∧
    ((∃ n ∈ g.notes, (noteCompanyId n).isSome) →
      (noteCompanyId g.keepNote).isSome = true ∧
      ∀ n ∈ g.notes, (noteCompanyId n).isSome → noteLe g.keepNote n) ∧
    ((∀ n ∈ g.notes, noteCompanyId n = none) →
      ∀ n ∈ g.notes, noteLe g.keepNote n) ∧
    (∀ n, n ∈ g.deleteNotes ↔ n ∈ g.notes ∧ n.id ≠ g.keepNote.id) := by
  simp only [selectGroup] at h
  split at h
  case isFalse => exact absurd h (by simp)
  case isTrue hcond =>
    split at h
    case h_1 => exact absurd h (by simp)
    case h_2 s0 tl heq =>
      rw [Option.some_inj] at h
      subst h
      simp only
      haveI : IsTotal Note noteLe := ⟨fun _ _ => lexLe_total _ _⟩
      haveI : IsTrans Note noteLe := ⟨fun _ _ _ => lexLe_trans _ _ _⟩
      set S := List.insertionSort noteLe ns with hSdef
      have hSorted : List.Sorted noteLe S := List.sorted_insertionSort noteLe ns
      have hd : ∀ n ∈ S, noteLe s0 n := by
        intro n hn
        rw [heq] at hn
        rcases List.mem_cons.mp hn with rfl | hn'
        · exact noteLe_refl n
        · exact List.rel_of_sorted_cons (heq ▸ hSorted) n hn'
      constructor
      · cases hW : S.filter (fun n => (noteCompanyId n).isSome) with
        | nil =>
          simp only [hW, List.headD_nil]
          rw [heq]; exact List.mem_cons_self _ _
        | cons w ws =>
          simp only [hW, List.headD_cons]
          exact List.mem_of_mem_filter (hW ▸ List.mem_cons_self w ws)
      constructor
      · rintro ⟨n, hn, hc⟩
        have hnf : n ∈ S.filter (fun n => (noteCompanyId n).isSome) :=
          List.mem_filter.mpr ⟨hn, hc⟩
        cases hW : S.filter (fun n => (noteCompanyId n).isSome) with
        | nil => rw [hW] at hnf; exact absurd hnf (List.not_mem_nil n)
        | cons w ws =>
          simp only [hW, List.headD_cons]
          have hwmem : w ∈ S.filter (fun n => (noteCompanyId n).isSome) :=
            hW ▸ List.mem_cons_self w ws
          refine ⟨(List.mem_filter.mp hwmem).2, ?_⟩
          intro m hm hmc
          have hmf : m ∈ S.filter (fun n => (noteCompanyId n).isSome) :=
            List.mem_filter.mpr ⟨hm, hmc⟩
          have hfSorted : List.Sorted noteLe (S.filter (fun n => (noteCompanyId n).isSome)) :=
            hSorted.filter _
          rw [hW] at hmf hfSorted
          rcases List.mem_cons.mp hmf with rfl | hm'
          · exact noteLe_refl m
          · exact List.rel_of_sorted_cons hfSorted m hm'
      constructor
      · intro hnone
        have hW : S.filter (fun n => (noteCompanyId n).isSome) = [] := by
          rw [List.filter_eq_nil_iff]
          intro n hn
          simp [hnone n hn]
        simp only [hW, List.headD_nil]
        exact hd
      · intro n
        simp only [List.mem_filter, decide_eq_true_eq]

/-- C1: `findDuplicateGroups` groups the spec's notes `A`, `B`, `C` into a
single duplicate group keeping `A` and deleting `B` and `C`; and in every
produced group the keep note is a member that is `createdAt`-minimal among
the members with a company when any member has one (else among all
members), and the delete set is exactly the members whose id differs from
the keep note's. -/
theorem duplicate_grouping_keep_earliest_with_company :
    (findDuplicateGroups [exNoteA, exNoteB, exNoteC] = [exGroup] ∧
      exGroup.keepNote = exNoteA ∧ exGroup.deleteNotes = [exNoteC, exNoteB]) ∧
    (∀ (notes : List Note) (g : DuplicateGroup), g ∈ findDuplicateGroups notes →
      g.keepNote ∈ g.notes ∧
      ((∃ n ∈ g.notes, (noteCompanyId n).isSome) →
        (noteCompanyId g.keepNote).isSome = true ∧
        ∀ n ∈ g.notes, (noteCompanyId n).isSome → noteLe g.keepNote n) ∧
      ((∀ n ∈ g.notes, noteCompanyId n = none) →
        ∀ n ∈ g.notes, noteLe g.keepNote n) ∧
      (∀ n, n ∈ g.deleteNotes ↔ n ∈ g.notes ∧ n.id ≠ g.keepNote.id)) := by
  constructor
  · exact ⟨by decide, by decide, by decide⟩
  · intro notes g hg
    simp only [findDuplicateGroups, List.mem_filterMap] at hg
    obtain ⟨kv, _, hsel⟩ := hg
    exact selectGroup_spec kv.1 kv.2 g hsel

/-- Witness for C1's general part, instantiated at the spec's example. -/
theorem duplicate_grouping_keep_earliest_with_company_witness :
    exGroup.keepNote ∈ exGroup.notes ∧ (noteCompanyId exGroup.keepNote).isSome = true :=
  have h := duplicate_grouping_keep_earliest_with_company.2 [exNoteA, exNoteB, exNoteC]
    exGroup (by decide)
  ⟨h.1, (h.2.1 ⟨exNoteA, by decide, by decide⟩).1⟩

theorem migrationLoop_results (cfs : List CustomField)
    (sink : String → String → JsValue → String → SinkOutcome) (l : List PreviewItem) :
    (migrationLoop cfs sink l).1 = l.map (execMigrationItem cfs sink) := by
  induction l with
  | nil => rfl
  | cons it rest ih => simp [migrationLoop, ih]

/-- C4: the migration executor records one result per classified
`will_update` item — the i-th result is exactly the outcome of the i-th
item's own sink call, so a failing item never aborts the run; on the
concrete ten-item list whose sink fails only on item #5, the run reports
exactly one failure and nine successes. -/
theorem executor_failure_isolation :
    (∀ (cfs : List CustomField) (items : List PreviewItem)
      (sink : String → String → JsValue → String → SinkOutcome),
      (handleExecuteMigration cfs items sink).1.length = (willUpdateItems items).length ∧
      ∀ i : Nat,
        (handleExecuteMigration cfs items sink).1.get? i =
          ((willUpdateItems items).get? i).map (execMigrationItem cfs sink)) ∧
    ((handleExecuteMigration [] exMigItems exMigSink).1.map (·.success) =
      [true, true, true, true, false, true, true, true, true, true]) := by
  constructor
  · intro cfs items sink
    constructor
    · simp [handleExecuteMigration, migrationLoop_results]
    · intro i
      simp [handleExecuteMigration, migrationLoop_results, List.getElem?_map]
  · decide

/-- C5: `isBlankValue` is true exactly for `null`/`undefined` or a value
whose trimmed text is `""`, `"-"`, or `"'-"`; in particular it accepts
`""`, `"   "`, `"-"`, `"'-"`, `null`/`undefined` and rejects `"0"`,
`"-1"`, `"N/A"`. -/
theorem isBlank_characterization :
    (∀ v : Option String, isBlankValue v = true ↔
      (v = none ∨ ∃ s, v = some s ∧
        (jsTrim s = "" ∨ jsTrim s = "-" ∨ jsTrim s = "'-"))) ∧
    (isBlankValue (some "") = true ∧ isBlankValue (some "   ") = true ∧
     isBlankValue (some "-") = true ∧ isBlankValue (some "'-") = true ∧
     isBlankValue none = true ∧
     isBlankValue (some "0") = false ∧ isBlankValue (some "-1") = false ∧
     isBlankValue (some "N/A") = false) := by
  constructor
  · rintro (_ | s) <;> simp [isBlankValue, or_assoc]
  · decide

/-- C9: both classifiers are pure functions of their declared inputs in
this embedding — the stateful JS originals translate to state-free Lean
functions with the network behind explicit oracle arguments — so
re-running classification on the same inputs yields identical output. -/
theorem classification_idempotent :
    (∀ notes : List Note, findDuplicateGroups notes = findDuplicateGroups notes) ∧
    (∀ (ms : List FieldMapping) (cfs : List CustomField) (fs : List Feature)
      (oracle : String → String → Option BatchEntry) (flag : Bool),
      handleLoadPreview ms cfs fs oracle flag = handleLoadPreview ms cfs fs oracle flag) :=
  ⟨fun _ => rfl, fun _ _ _ _ _ => rfl⟩

/-- C2: for every fetched feature and mapping rule the preview classifies
`skipped_source_empty` when the source value is absent, `skipped_has_value`
when `onlyEmptyTargets` is set and the target has a value, and otherwise
`will_update` carrying the source value (the value execution writes); in
particular source-present/target-present is `skipped_has_value` under the
flag and `will_update` without it. -/
theorem field_copy_classification :
    (∀ (ms : List FieldMapping) (cfs : List CustomField) (fs : List Feature)
      (oracle : String → String → Option BatchEntry) (onlyEmpty : Bool) (it : PreviewItem),
      it ∈ handleLoadPreview ms cfs fs oracle onlyEmpty →
      ((lookupEntry oracle it.sourceFieldId it.featureId).hasValue = false →
        it.action = .skipped_source_empty) ∧
      ((lookupEntry oracle it.sourceFieldId it.featureId).hasValue = true →
        onlyEmpty = true →
        (lookupEntry oracle it.targetFieldId it.featureId).hasValue = true →
        it.action = .skipped_has_value) ∧
      ((lookupEntry oracle it.sourceFieldId it.featureId).hasValue = true →
        (onlyEmpty = false ∨ (lookupEntry oracle it.targetFieldId it.featureId).hasValue = false) →
        it.action = .will_update ∧
          it.sourceValue = (lookupEntry oracle it.sourceFieldId it.featureId).value)) ∧
    ((handleLoadPreview [exMapping] [] [exFeature] exOracleBoth true).map (·.action) =
      [.skipped_has_value] ∧
     (handleLoadPreview [exMapping] [] [exFeature] exOracleBoth false).map (·.action) =
      [.will_update]) := by
  constructor
  · intro ms cfs fs oracle onlyEmpty it hit
    simp only [handleLoadPreview, List.mem_flatMap, List.mem_map] at hit
    obtain ⟨m, hm, f, hf, rfl⟩ := hit
    refine ⟨?_, ?_, ?_⟩
    · intro hsrc
      simp only [classifyFeature] at hsrc ⊢
      simp [hsrc]
    · intro hsrc honly htgt
      simp only [classifyFeature] at hsrc htgt ⊢
      simp [hsrc, honly, htgt]
    · intro hsrc hcase
      simp only [classifyFeature] at hsrc hcase ⊢
      rcases hcase with h | h
      · subst h; simp [hsrc]
      · simp [hsrc, h]
  · constructor
    · decide
    · decide

/-- Witness for C2 at a concrete feature whose source and target are both
populated. -/
theorem field_copy_classification_witness :
    (classifyFeature true [] exOracleBoth exMapping exFeature).action =
      PreviewAction.skipped_has_value ∧
    (classifyFeature false [] exOracleBoth exMapping exFeature).action =
      PreviewAction.will_update :=
  have h1 := field_copy_classification.1 [exMapping] [] [exFeature] exOracleBoth true
    (classifyFeature true [] exOracleBoth exMapping exFeature)
    (show _ ∈ [classifyFeature true [] exOracleBoth exMapping exFeature] from
      List.mem_singleton.mpr rfl)
  have h2 := field_copy_classification.1 [exMapping] [] [exFeature] exOracleBoth false
    (classifyFeature false [] exOracleBoth exMapping exFeature)
    (show _ ∈ [classifyFeature false [] exOracleBoth exMapping exFeature] from
      List.mem_singleton.mpr rfl)
  ⟨h1.2.1 (by decide) rfl (by decide), (h2.2.2 (by decide) (Or.inl rfl)).1⟩

theorem throttleTrace_succ (b ms n i total : Nat) :
    throttleTrace b ms (n + 1) i total =
      (if (i + 1) % b = 0 && i + 1 < total then [ms] else []) ++
        throttleTrace b ms n (i + 1) total := by
  unfold throttleTrace
  rw [List.range_succ_eq_map, List.filterMap_cons]
  have hshift : ∀ k : Nat, i + Nat.succ k + 1 = (i + 1) + k + 1 := by omega
  have hmap :
      List.filterMap
        (fun k => if (i + k + 1) % b = 0 && i + k + 1 < total then some ms else none)
        ((List.range n).map Nat.succ) =
      List.filterMap
        (fun k => if ((i + 1) + k + 1) % b = 0 && (i + 1) + k + 1 < total then some ms else none)
        (List.range n) := by
    rw [List.filterMap_map]
    apply List.filterMap_congr
    intro k _
    simp only [Function.comp]
    rw [hshift k]
  rw [hmap]
  simp only [Nat.add_zero]
  by_cases hc : (i + 1) % b = 0 ∧ i + 1 < total
  · simp [hc.1, hc.2]
  · rcases Decidable.not_and_iff_or_not.mp hc with h | h <;> simp [h]

theorem deletionLoop_sleeps (companies : String → Option String)
    (sink : String → DeleteSinkOutcome) :
    ∀ (l : List Note) (i total : Nat),
      (deletionLoop companies sink l i total).2 = throttleTrace 50 1000 l.length i total := by
  intro l
  induction l with
  | nil => intro i total; simp [deletionLoop, throttleTrace]
  | cons note rest ih =>
    intro i total
    simp only [deletionLoop, List.length_cons, throttleTrace_succ, ih]

theorem bulkLoop_sleeps (preserve : Bool) (getValue : String → String → GetValueOutcome)
    (updateSink : String → List CustomFieldUpdate → UpdateSinkOutcome)
    (nameOracle : String → Option String) (cfs : List CustomField)
    (vcs : List ColumnMapping) (uc : String) :
    ∀ (l : List (Nat × CSVRow)) (i total : Nat),
      (bulkLoop preserve getValue updateSink nameOracle cfs vcs uc l i total).2 =
        throttleTrace 10 200 l.length i total := by
  intro l
  induction l with
  | nil => intro i total; simp [bulkLoop, throttleTrace]
  | cons p rest ih =>
    intro i total
    obtain ⟨ri, row⟩ := p
    simp only [bulkLoop, List.length_cons, throttleTrace_succ, ih]

theorem migrationLoop_sleeps (cfs : List CustomField)
    (sink : String → String → JsValue → String → SinkOutcome) :
    ∀ l : List PreviewItem, (migrationLoop cfs sink l).2 = [] := by
  intro l
  induction l with
  | nil => rfl
  | cons it rest ih => simp [migrationLoop, ih]

/-- C7 counterexample: a note-deletion run over eleven notes inserts no
delay at all — the deletion loop throttles only after every 50th item,
not after every 10th as claimed (and the migration executor, see the
amended theorem, never sleeps). -/
theorem throttle_counterexample :
    (handleDeleteDuplicates (findDuplicateGroups exDelNotes) (fun _ => none)
        (fun _ => .ok true none)).1.length = 11 ∧
    (handleDeleteDuplicates (findDuplicateGroups exDelNotes) (fun _ => none)
        (fun _ => .ok true none)).2 = [] := by
  constructor
  · decide
  · decide

/-- C7 amended: the bulk-update executor sleeps 200 ms after every 10th
processed row when more remain; the note-deletion executor sleeps 1000 ms
after every 50th note; the field-migration executor inserts no throttle
delay at all. -/
theorem executor_throttle_schedules :
    (∀ (preserve : Bool) (getValue : String → String → GetValueOutcome)
      (updateSink : String → List CustomFieldUpdate → UpdateSinkOutcome)
      (nameOracle : String → Option String) (cfs : List CustomField)
      (cms : List ColumnMapping) (uc : String) (rows : List CSVRow),
      (handleStartUpdate preserve getValue updateSink nameOracle cfs cms uc rows).2 =
        throttleTrace 10 200 (rowsToProcess rows (getValueColumns cms uc) uc).length 0
          (rowsToProcess rows (getValueColumns cms uc) uc).length) ∧
    (∀ (groups : List DuplicateGroup) (companies : String → Option String)
      (sink : String → DeleteSinkOutcome),
      (handleDeleteDuplicates groups companies sink).2 =
        throttleTrace 50 1000 (groups.flatMap (·.deleteNotes)).length 0
          (groups.flatMap (·.deleteNotes)).length) ∧
    (∀ (cfs : List CustomField) (previewItems : List PreviewItem)
      (sink : String → String → JsValue → String → SinkOutcome),
      (handleExecuteMigration cfs previewItems sink).2 = []) := by
  refine ⟨?_, ?_, ?_⟩
  · intro preserve getValue updateSink nameOracle cfs cms uc rows
    simp [handleStartUpdate, bulkLoop_sleeps]
  · intro groups companies sink
    simp [handleDeleteDuplicates, deletionLoop_sleeps]
  · intro cfs previewItems sink
    simp [handleExecuteMigration, migrationLoop_sleeps]

/-- C3: with `preserveExisting` on, a processed row with two mapped
non-blank numeric cells — one whose remote field already has a value and
one whose remote field is empty — yields a result with `success = true`
and `allFieldsSkipped = false`, logging exactly one skipped field (the
populated one) and one applied field, and the sink payload carries
exactly the one empty-side field. -/
theorem preserve_existing_partial_skip_success
    (getValue : String → String → GetValueOutcome)
    (updateSink : String → List CustomFieldUpdate → UpdateSinkOutcome)
    (nameOracle : String → Option String) (cfs : List CustomField)
    (m1 m2 : ColumnMapping) (f1 f2 : CustomField) (uuidCol : String) (ri : Nat)
    (row : CSVRow) (u v1 v2 : String) (n1 n2 : Rat) (val1 val2 : JsValue)
    (hf1 : cfs.find? (fun f => some f.id = m1.mappedTo) = some f1)
    (hf2 : cfs.find? (fun f => some f.id = m2.mappedTo) = some f2)
    (hu : rowGet row uuidCol = some u)
    (hv1 : rowGet row m1.csvColumn = some v1)
    (hv2 : rowGet row m2.csvColumn = some v2)
    (hb1 : isBlankValue (some v1) = false)
    (hb2 : isBlankValue (some v2) = false)
    (hn1 : cleanNumeric v1 = some n1)
    (hn2 : cleanNumeric v2 = some n2)
    (hg1 : getValue f1.id (jsTrim u) = .ok true true val1)
    (hg2 : getValue f2.id (jsTrim u) = .ok true false val2)
    (hsink : updateSink (jsTrim u) [⟨f2.id, f2.type, n2⟩] = .ok true none) :
    processRow true getValue updateSink nameOracle cfs [m1, m2] uuidCol ri row =
      some ⟨ri, jsTrim u, resolveFeatureName nameOracle (jsTrim u), true, none,
        [⟨f1.id, f1.name, some (formatFieldValue val1), numToString n1, true⟩,
         ⟨f2.id, f2.name, none, numToString n2, false⟩], false⟩ ∧
    ([m1, m2].filterMap (processField true getValue cfs row (jsTrim u))).filterMap (·.2) =
      [⟨f2.id, f2.type, n2⟩] := by
  have hp1 : processField true getValue cfs row (jsTrim u) m1 =
      some (⟨f1.id, f1.name, some (formatFieldValue val1), numToString n1, true⟩, none) := by
    simp [processField, hf1, hv1, hb1, hn1, hg1]
  have hp2 : processField true getValue cfs row (jsTrim u) m2 =
      some (⟨f2.id, f2.name, none, numToString n2, false⟩,
        some ⟨f2.id, f2.type, n2⟩) := by
    simp [processField, hf2, hv2, hb2, hn2, hg2]
  constructor
  · simp [processRow, hu, hp1, hp2, hsink]
  · simp [hp1, hp2]

theorem cleanNumeric_ten : cleanNumeric "10" = some 10 := by
  have h : stripPercents (jsTrim "10") = "10" := by decide
  have h2 : ("10" : String).data = ['1', '0'] := by decide
  simp +decide [cleanNumeric, h, jsParseFloat, h2, digitsToNat]

theorem cleanNumeric_twenty : cleanNumeric "20" = some 20 := by
  have h : stripPercents (jsTrim "20") = "20" := by decide
  have h2 : ("20" : String).data = ['2', '0'] := by decide
  simp +decide [cleanNumeric, h, jsParseFloat, h2, digitsToNat]

/-- Witness for C3: a concrete row whose `fldA` is populated remotely and
whose `fldB` is empty. -/
theorem preserve_existing_witness :
    processRow true exGetValue exUpdateSink (fun _ => none) [exFieldA, exFieldB]
      [⟨"colA", some "fldA"⟩, ⟨"colB", some "fldB"⟩] "uuid" 0 exRow =
      some ⟨0, jsTrim "feat-1", resolveFeatureName (fun _ => none) (jsTrim "feat-1"), true, none,
        [⟨"fldA", "Field A", some (formatFieldValue (.vStr "old")), numToString 10, true⟩,
         ⟨"fldB", "Field B", none, numToString 20, false⟩], false⟩ ∧
    ([(⟨"colA", some "fldA"⟩ : ColumnMapping), ⟨"colB", some "fldB"⟩].filterMap
        (processField true exGetValue [exFieldA, exFieldB] exRow (jsTrim "feat-1"))).filterMap
      (·.2) = [⟨"fldB", "number", 20⟩] :=
  preserve_existing_partial_skip_success exGetValue exUpdateSink (fun _ => none)
    [exFieldA, exFieldB] ⟨"colA", some "fldA"⟩ ⟨"colB", some "fldB"⟩ exFieldA exFieldB
    "uuid" 0 exRow "feat-1" "10" "20" 10 20 (.vStr "old") .vNull
    (by decide) (by decide) (by decide) (by decide) (by decide) (by decide) (by decide)
    cleanNumeric_ten cleanNumeric_twenty rfl rfl rfl

theorem cleanNumeric_abc : cleanNumeric "abc" = none := by
  have h : stripPercents (jsTrim "abc") = "abc" := by decide
  have h2 : ("abc" : String).data = ['a', 'b', 'c'] := by decide
  simp +decide [cleanNumeric, h, jsParseFloat, h2]

theorem cleanNumeric_five : cleanNumeric "5" = some 5 := by
  have h : stripPercents (jsTrim "5") = "5" := by decide
  have h2 : ("5" : String).data = ['5'] := by decide
  simp +decide [cleanNumeric, h, jsParseFloat, h2, digitsToNat]

theorem cleanNumeric_45pct : cleanNumeric "45%" = some 45 := by
  have h : stripPercents (jsTrim "45%") = "45" := by decide
  have h2 : ("45" : String).data = ['4', '5'] := by decide
  simp +decide [cleanNumeric, h, jsParseFloat, h2, digitsToNat]

theorem cleanNumeric_12p5pct : cleanNumeric " 12.5 % " = some (25 / 2 : Rat) := by
  have h : stripPercents (jsTrim " 12.5 % ") = "12.5 " := by decide
  have h2 : ("12.5 " : String).data = ['1', '2', '.', '5', ' '] := by decide
  simp +decide [cleanNumeric, h, jsParseFloat, h2, digitsToNat]
  norm_num

/-- C6 counterexample: in the bulk-update flow, a row mapping `"abc"` and
`"5"` to two number fields produces a single result with no error at all
and a field-update log naming only the parseable field — the failed parse
of `"abc"` is silently omitted, not reported as a field-level error as
the claim states. -/
theorem toNumeric_silent_omission_counterexample :
    ((handleStartUpdate false exGetValue exUpdateSink (fun _ => none) [exFieldA, exFieldB]
        exColumnMappings "uuid" [exRowBad]).1.map
      (fun r => (r.error, r.success, r.fieldUpdates.map (·.fieldId)))) =
      [(none, true, ["fldB"])] ∧
    isBlankValue (some "abc") = false ∧ cleanNumeric "abc" = none := by
  refine ⟨?_, by decide, cleanNumeric_abc⟩
  have huuid : jsTrim ((rowGet exRowBad "uuid").getD "") = "feat-2" := by decide
  have hcA : rowGet exRowBad "colA" = some "abc" := by decide
  have hcB : rowGet exRowBad "colB" = some "5" := by decide
  have hpA : processField false exGetValue [exFieldA, exFieldB] exRowBad "feat-2"
      ⟨"colA", some "fldA"⟩ = none := by
    simp +decide [processField, hcA, cleanNumeric_abc]
  have hpB : processField false exGetValue [exFieldA, exFieldB] exRowBad "feat-2"
      ⟨"colB", some "fldB"⟩ =
      some (⟨"fldB", "Field B", none, numToString 5, false⟩,
        some ⟨"fldB", "number", 5⟩) := by
    simp +decide [processField, hcB, cleanNumeric_five]
  have hvc : getValueColumns exColumnMappings "uuid" =
      [⟨"colA", some "fldA"⟩, ⟨"colB", some "fldB"⟩] := by decide
  have hrtp : rowsToProcess [exRowBad] (getValueColumns exColumnMappings "uuid") "uuid" =
      [(0, exRowBad)] := by decide
  have hrow : processRow false exGetValue exUpdateSink (fun _ => none) [exFieldA, exFieldB]
      (getValueColumns exColumnMappings "uuid") "uuid" 0 exRowBad =
      some ⟨0, "feat-2", "feat-2", true, none,
        [⟨"fldB", "Field B", none, numToString 5, false⟩], false⟩ := by
    rw [hvc]
    simp only [processRow, huuid]
    simp [hpA, hpB, exUpdateSink, resolveFeatureName]
  simp [handleStartUpdate, hrtp, bulkLoop, hrow]

/-- C6 amended: `toNumeric` trims, strips `%` and parses as a float
(45 for `"45%"`, 12.5 for `" 12.5 % "`, failure for `"abc"`); a non-blank
mapped value that fails to parse is never thrown past the row boundary
and never coerced to zero, and the row's other fields continue to be
processed — but only the company-import flow reports it as a field-level
error; the bulk-update flow omits the field silently. -/
theorem toNumeric_coercion_and_failure_handling :
    (cleanNumeric "45%" = some 45 ∧ cleanNumeric " 12.5 % " = some (25 / 2 : Rat) ∧
      cleanNumeric "abc" = none) ∧
    (∀ (preserve : Bool) (getValue : String → String → GetValueOutcome)
      (cfs : List CustomField) (row : CSVRow) (fid : String) (m : ColumnMapping) (v : String),
      rowGet row m.csvColumn = some v →
      isBlankValue (some v) = false →
      cleanNumeric v = none →
      processField preserve getValue cfs row fid m = none) ∧
    (∀ (preserve : Bool) (getValue : String → String → GetValueOutcome)
      (updateSink : String → List CustomFieldUpdate → UpdateSinkOutcome)
      (nameOracle : String → Option String) (cfs : List CustomField)
      (vcs : List ColumnMapping) (uc : String) (ri : Nat) (row : CSVRow) (m : ColumnMapping),
      processField preserve getValue cfs row (jsTrim ((rowGet row uc).getD "")) m = none →
      processRow preserve getValue updateSink nameOracle cfs (m :: vcs) uc ri row =
        processRow preserve getValue updateSink nameOracle cfs vcs uc ri row) ∧
    (∀ (companyFields : List CompanyFieldConfig)
      (setSink : String → String → NumOrStr → SetSinkResult)
      (fieldId value : String) (fc : CompanyFieldConfig) (rest : List (String × String)),
      value ≠ "" →
      companyFields.find? (fun f => f.id = fieldId) = some fc →
      fc.type = "number" →
      jsParseFloat value = none →
      companyFieldPass companyFields setSink ((fieldId, value) :: rest) =
        (("Invalid number value for " ++ fc.name ++ ": " ++ value) ::
            (companyFieldPass companyFields setSink rest).1,
         (companyFieldPass companyFields setSink rest).2)) := by
  refine ⟨⟨cleanNumeric_45pct, cleanNumeric_12p5pct, cleanNumeric_abc⟩, ?_, ?_, ?_⟩
  · intro preserve getValue cfs row fid m v hv hb hn
    cases hfind : cfs.find? (fun f => some f.id = m.mappedTo) with
    | none => simp [processField, hfind]
    | some field => simp [processField, hfind, hv, hb, hn]
  · intro preserve getValue updateSink nameOracle cfs vcs uc ri row m hm
    simp only [processRow, List.filterMap_cons, hm]
  · intro companyFields setSink fieldId value fc rest hvne hfind htype hparse
    simp [companyFieldPass, hvne, hfind, htype, hparse]

/-- Witness for C6's amended claim: the silently omitted field of the
bulk-update flow and the reported field error of the company-import
flow, at concrete inputs. -/
theorem toNumeric_coercion_witness :
    processField false exGetValue [exFieldA, exFieldB] exRowBad "feat-2"
      ⟨"colA", some "fldA"⟩ = none ∧
    companyFieldPass [⟨"cf1", "Revenue", "number"⟩] (fun _ _ _ => ⟨true, none⟩)
      [("cf1", "abc")] =
      (["Invalid number value for Revenue: abc"], []) :=
  have h1 := toNumeric_coercion_and_failure_handling.2.1 false exGetValue
    [exFieldA, exFieldB] exRowBad "feat-2" ⟨"colA", some "fldA"⟩ "abc"
    (by decide) (by decide) cleanNumeric_abc
  have h2 := toNumeric_coercion_and_failure_handling.2.2.2 [⟨"cf1", "Revenue", "number"⟩]
    (fun _ _ _ => ⟨true, none⟩) "cf1" "abc" ⟨"cf1", "Revenue", "number"⟩ []
    (by decide) (by decide) rfl (by decide)
  ⟨h1, h2⟩

theorem goCSV_quoted : ∀ (cs cur : List Char) (acc : List String),
    goCSV (doubleQuotesList cs ++ ['"']) true cur acc =
      acc ++ [jsTrim (String.mk (cur ++ cs))] := by
  intro cs
  induction cs with
  | nil => intro cur acc; simp [doubleQuotesList, goCSV]
  | cons c cs ih =>
    intro cur acc
    by_cases hc : c = '"'
    · subst hc
      simp only [doubleQuotesList, if_pos rfl, List.cons_append, goCSV, List.append_eq]
      rw [ih]
      simp [List.append_assoc]
    · simp only [doubleQuotesList, if_neg hc, List.cons_append]
      rw [show goCSV (c :: (doubleQuotesList cs ++ ['"'])) true cur acc =
          goCSV (doubleQuotesList cs ++ ['"']) true (cur ++ [c]) acc from by
        simp [goCSV, hc]]
      rw [ih]
      simp [List.append_assoc]

theorem goCSV_plain : ∀ (cs : List Char), (∀ c ∈ cs, c ≠ '"' ∧ c ≠ ',') →
    ∀ (cur : List Char) (acc : List String),
    goCSV cs false cur acc = acc ++ [jsTrim (String.mk (cur ++ cs))] := by
  intro cs
  induction cs with
  | nil => intro _ cur acc; simp [goCSV]
  | cons c cs ih =>
    intro h cur acc
    obtain ⟨hq, hcm⟩ := h c (List.mem_cons_self c cs)
    rw [show goCSV (c :: cs) false cur acc = goCSV cs false (cur ++ [c]) acc from by
      simp [goCSV, hq, hcm]]
    rw [ih (fun x hx => h x (List.mem_cons_of_mem c hx))]
    simp [List.append_assoc]

/-- C8 counterexample: `parseCSVLine` trims every field it emits, so the
escape/parse round trip returns the trimmed string — `"a, "` (which
contains a comma) escapes to `"\"a, \""` but parses back to `"a,"`, not
the original.  The spec's own example `He said, "hi"` does round-trip,
because it has no leading or trailing whitespace. -/
theorem csv_roundtrip_counterexample :
    escapeCSV "a, " = "\"a, \"" ∧
    parseCSVLine (escapeCSV "a, ") = ["a,"] ∧
    ("a," : String) ≠ "a, " ∧
    escapeCSV "He said, \"hi\"" = "\"He said, \"\"hi\"\"\"" ∧
    parseCSVLine (escapeCSV "He said, \"hi\"") = ["He said, \"hi\""] := by
  refine ⟨by decide, by decide, by decide, by decide, by decide⟩

/-- C8 amended: for every string, `escapeCSV` (quote-wrap and
quote-double when a comma, quote, or newline is present) followed by
`parseCSVLine` yields the single field `jsTrim s` — the original string
whenever it carries no leading/trailing whitespace; a quoted field may
contain embedded commas and is not split there. -/
theorem csv_escape_parse_trim : ∀ s : String, parseCSVLine (escapeCSV s) = [jsTrim s] := by
  intro s
  by_cases h : (s.data.contains ',' || s.data.contains '"' || s.data.contains '\n') = true
  · rw [escapeCSV, if_pos h]
    unfold parseCSVLine
    have hdata : ("\"" ++ String.mk (doubleQuotesList s.data) ++ "\"").data =
        '"' :: (doubleQuotesList s.data ++ ['"']) := rfl
    rw [hdata]
    rw [show goCSV ('"' :: (doubleQuotesList s.data ++ ['"'])) false [] [] =
        goCSV (doubleQuotesList s.data ++ ['"']) true [] [] from by simp [goCSV]]
    rw [goCSV_quoted]
    rfl
  · rw [escapeCSV, if_neg h]
    unfold parseCSVLine
    have hmem : ∀ c ∈ s.data, c ≠ '"' ∧ c ≠ ',' := by
      intro c hc
      simp only [Bool.or_eq_true, not_or] at h
      constructor
      · intro e; subst e
        exact h.1.2 (List.elem_eq_true_of_mem hc)
      · intro e; subst e
        exact h.1.1 (List.elem_eq_true_of_mem hc)
    rw [goCSV_plain s.data hmem [] []]
    rfl

/-- C10 counterexample: `deleteNote` treats every status other than 204
and 404 as failure, including other 2xx statuses — a 200 response yields
`success: false` with an error message, so "only other non-2xx statuses
yield failure" is false as stated. -/
theorem deleteNote_2xx_failure_counterexample :
    (deleteNote 200 "").success = false ∧
    (deleteNote 200 "").error = some "Request failed (200)" ∧
    200 / 100 = 2 := by
  refine ⟨by decide, ?_, by decide⟩
  decide

/-- C10 amended: `deleteNote` reports success exactly for status 204 and
404 — an already-deleted note (404) is a success shaped like a 204, making
delete retries idempotent — and every other status, 2xx included, yields
`success: false` with an error message (the rate-limit text for 429, the
sanitized message otherwise). -/
theorem deleteNote_success_iff (status : Nat) (errText : String) :
    ((deleteNote status errText).success = true ↔ (status = 204 ∨ status = 404)) ∧
    deleteNote 404 errText = ⟨true, none, some 404⟩ ∧
    deleteNote 204 errText = ⟨true, none, some 204⟩ ∧
    deleteNote 429 errText =
      ⟨false, some "Rate limit exceeded - please wait and retry", some 429⟩ ∧
    ((deleteNote status errText).success = false →
      (deleteNote status errText).error.isSome = true) := by
  refine ⟨?_, by simp [deleteNote], by simp [deleteNote], by simp [deleteNote], ?_⟩
  · unfold deleteNote
    by_cases h1 : status = 204
    · simp [h1]
    · by_cases h2 : status = 404
      · simp [h2]
      · by_cases h3 : status = 429 <;> simp [h1, h2, h3]
  · intro hfail
    unfold deleteNote at hfail ⊢
    by_cases h1 : status = 204
    · simp [h1] at hfail
    · by_cases h2 : status = 404
      · simp [h1, h2] at hfail
      · by_cases h3 : status = 429 <;> simp [h1, h2, h3]

/-- Witness for C10's amended claim at statuses 404 and 500. -/
theorem deleteNote_success_iff_witness :
    ((deleteNote 404 "gone").success = true ↔ (404 = 204 ∨ 404 = 404)) ∧
    (deleteNote 500 "x").error.isSome = true :=
  ⟨(deleteNote_success_iff 404 "gone").1,
   (deleteNote_success_iff 500 "x").2.2.2.2 (by decide)⟩

end PB
